import Mathlib

/-!
Shallow embedding of the sensit-audio-cli playback core
(src/lib.rs, src/main.rs, src/player_actor.rs, src/input_actor.rs).

Conventions used throughout this development:
* Rust `usize` arithmetic is modelled with `Nat`; a subtraction underflow or an
  out-of-bounds `Vec` index (both of which panic in the source) is modelled by
  returning `none` from the surrounding operation.
* Fallible Rust functions returning `Result` are modelled with `Except`.
* The shared `Arc<Mutex<StreamState>>` cell is modelled by the orchestrator's
  `stream_state : Option StreamState` field (its currently observable value);
  each assignment to the cell is additionally recorded as a `WriteEvent`
  (old value, new value, writing component) so that the allowed-transition
  discipline can be stated.  Creating a fresh cell (seeded `Pause` by
  `AudioStreamBuilder.load`) is a creation, not a write to an existing cell,
  and produces no `WriteEvent`.
* Cross-thread channels are modelled by boolean oracles (`reply_open`,
  `event_open`, `recv_ok`, `load_ok`): `true` means the transfer succeeds,
  `false` that the peer end is closed / the request fails.
-/

namespace SensitAudio

/-- StreamState from src/lib.rs: shared play/pause/stop/finished flag.
`Stop` is the spec's "Stopped", `Done` the spec's "Finished". -/
inductive StreamState
  | Play
  | Pause
  | Stop
  | Done
deriving DecidableEq, Repr

/-- StreamState::is_paused (src/lib.rs). -/
def StreamState.is_paused : StreamState → Bool
  | .Pause => true
  | _ => false

/-- StreamState::is_playing (src/lib.rs). -/
def StreamState.is_playing : StreamState → Bool
  | .Play => true
  | _ => false

/-- StreamState::is_stopped (src/lib.rs). -/
def StreamState.is_stopped : StreamState → Bool
  | .Stop => true
  | _ => false

/-- StreamState::is_done (src/lib.rs). -/
def StreamState.is_done : StreamState → Bool
  | .Done => true
  | _ => false

/-- AudioPlayConfig from src/lib.rs. -/
structure AudioPlayConfig where
  loop_playlist : Bool
deriving DecidableEq, Repr

/-- impl Default for AudioPlayConfig (src/lib.rs): loop_playlist is true. -/
def AudioPlayConfig.default : AudioPlayConfig :=
  { loop_playlist := true }

/-- PlaylistQueue from src/lib.rs: tracks (paths modelled as strings),
cursor index, and config. -/
structure PlaylistQueue where
  playlist : List String
  index : Nat
  cfg : AudioPlayConfig
deriving DecidableEq, Repr

/-- PlaylistQueue::new (src/lib.rs): index 0, default config. -/
def PlaylistQueue.new (playlist : List String) : PlaylistQueue :=
  { playlist := playlist, index := 0, cfg := AudioPlayConfig.default }

/-- PlaylistQueue::current (src/lib.rs): playlist.get(index). -/
def PlaylistQueue.current (q : PlaylistQueue) : Option String :=
  q.playlist[q.index]?

/-- PlaylistQueue::next (src/lib.rs).  Looping branch increments then wraps to
0 when the new index reaches the length, and indexes the vector directly
(panic, modelled as `none`, when the playlist is empty).  Non-looping branch
increments only while index is below the length and uses `get`. -/
def PlaylistQueue.next (q : PlaylistQueue) : Option (Option String × PlaylistQueue) :=
  if q.cfg.loop_playlist then
    let i := q.index + 1
    let i := if q.playlist.length ≤ i then 0 else i
    match q.playlist[i]? with
    | some t => some (some t, { q with index := i })
    | none => none
  else
    let i := if q.index < q.playlist.length then q.index + 1 else q.index
    some (q.playlist[i]?, { q with index := i })

/-- PlaylistQueue::next_back (src/lib.rs).  Looping branch resets a zero index
to the length before the decrement; the decrement underflows (panic, `none`)
exactly when that pre-decrement value is 0, i.e. on an empty playlist, and the
subsequent vector index panics when out of bounds.  Non-looping branch returns
None at index 0 without moving. -/
def PlaylistQueue.next_back (q : PlaylistQueue) : Option (Option String × PlaylistQueue) :=
  if q.cfg.loop_playlist then
    match (if q.index = 0 then q.playlist.length else q.index) with
    | 0 => none
    | i + 1 =>
      match q.playlist[i]? with
      | some t => some (some t, { q with index := i })
      | none => none
  else
    if q.index = 0 then
      some (none, q)
    else
      match q.playlist[q.index - 1]? with
      | some t => some (some t, { q with index := q.index - 1 })
      | none => none

/-- PlaylistQueue::len (src/lib.rs). -/
def PlaylistQueue.len (q : PlaylistQueue) : Nat :=
  q.playlist.length

/-- PlaylistQueue::is_looping (src/lib.rs). -/
def PlaylistQueue.is_looping (q : PlaylistQueue) : Bool :=
  q.cfg.loop_playlist

/-- PlaylistQueue::set_looping (src/lib.rs), state-passing style. -/
def PlaylistQueue.set_looping (q : PlaylistQueue) (looping : Bool) : PlaylistQueue :=
  { q with cfg := { q.cfg with loop_playlist := looping } }

/-- Navigation operations, for stating properties of arbitrary
next / next_back call sequences. -/
inductive NavOp
  | next
  | next_back
deriving DecidableEq, Repr

/-- Applies one navigation operation, discarding the returned track and
propagating a panic as `none`. -/
def PlaylistQueue.applyNav (q : PlaylistQueue) : NavOp → Option PlaylistQueue
  | .next => (q.next).map Prod.snd
  | .next_back => (q.next_back).map Prod.snd

/-- Applies a sequence of navigation operations left to right, propagating a
panic as `none`. -/
def PlaylistQueue.applyNavs (q : PlaylistQueue) : List NavOp → Option PlaylistQueue
  | [] => some q
  | op :: ops =>
    match q.applyNav op with
    | some q' => q'.applyNavs ops
    | none => none

/-- Component performing a write to a shared StreamState cell:
the Orchestrator (main.rs JukeBox) or the Playback Engine (lib.rs AudioStream). -/
inductive Writer
  | orch
  | engine
deriving DecidableEq, Repr

/-- One assignment to a shared StreamState cell: the value it held just before
the write, the value written, and the component writing. -/
structure WriteEvent where
  old : StreamState
  new : StreamState
  who : Writer
deriving DecidableEq, Repr

/-- Engine-side observation of the shared StreamState at the pre-packet check
in AudioStream::load (src/lib.rs).  The value is written concurrently by the
Orchestrator, so it is an oracle input here: `stop` means the check read Stop
(immediate return); `pauseThenStop` means it read Pause and the inner polling
loop eventually read Stop (return); `pauseThenPlay` means it read Pause and the
polling loop eventually read Play (resume); `play` means it read Play and fell
through. -/
inductive PacketObs
  | stop
  | pauseThenStop
  | pauseThenPlay
  | play
deriving DecidableEq, Repr

/-- One demuxed packet, abstracted: whether it belongs to the selected audio
stream, and whether decoding/resampling it (send_packet plus
receive_and_queue_audio_frames, including device pause/play calls) succeeds. -/
structure Packet where
  is_audio : Bool
  decode_ok : Bool
deriving DecidableEq, Repr

/-- Packet loop of AudioStream::load (src/lib.rs).  `cur` is the last known
value of the shared cell (the engine itself writes only the final Done).
Per packet: a Stop observation returns Ok immediately; a Pause observation
polls until Play (continue, cell now Play) or Stop (return Ok); an audio packet
whose decode/resample fails returns the error.  On exhausting the packets the
engine writes Done to the cell and returns Ok.  Returns the write events the
engine performed and the run result carrying the final observable state. -/
def engineSteps : StreamState → List (PacketObs × Packet) → List WriteEvent × Except Unit StreamState
  | cur, [] => ([⟨cur, .Done, .engine⟩], .ok .Done)
  | _, (obs, pkt) :: rest =>
    match obs with
    | .stop => ([], .ok .Stop)
    | .pauseThenStop => ([], .ok .Stop)
    | .pauseThenPlay =>
      if pkt.is_audio && !pkt.decode_ok then ([], .error ()) else engineSteps .Play rest
    | .play =>
      if pkt.is_audio && !pkt.decode_ok then ([], .error ()) else engineSteps .Play rest

/-- AudioStream from src/lib.rs, abstracted to what the playback loop observes:
the current value of its shared state cell, whether the initial
audio_stream.play() device call succeeds, and the demuxed packets. -/
structure AudioStream where
  state : StreamState
  start_ok : Bool
  packets : List (PacketObs × Packet)
deriving DecidableEq, Repr

/-- AudioStream::load (src/lib.rs): starts the device stream (an error there
aborts the run) and then runs the packet loop. -/
def AudioStream.load (s : AudioStream) : List WriteEvent × Except Unit StreamState :=
  if !s.start_ok then ([], .error ()) else engineSteps s.state s.packets

/-- AudioStreamBuilder::load (src/lib.rs): builds a stream whose shared state
cell is seeded Pause.  Device/decoder/resampler construction failures are
handled at the call site (player_actor handle_load's build oracle). -/
def AudioStreamBuilder.load (start_ok : Bool) (packets : List (PacketObs × Packet)) : AudioStream :=
  { state := .Pause, start_ok := start_ok, packets := packets }

/-- Command from src/main.rs. -/
inductive Command
  | Quit
  | Next
  | Previous
  | Restart
  | TogglePlay
  | ToggleLoop
  | ToggleAutoplay
  | ToggleShowState
deriving DecidableEq, Repr

/-- Event from src/player_actor.rs (StreamErr's error payload elided). -/
inductive Event
  | Done
  | StreamErr
deriving DecidableEq, Repr

/-- error::Player from src/main.rs (payloads elided). -/
inductive PlayerErr
  | channel
  | noStream
  | load
  | stream
deriving DecidableEq, Repr

/-- JukeboxConfig from src/main.rs. -/
structure JukeboxConfig where
  autoplay : Bool
  show_state : Bool
  playlist_buffer : Nat
deriving DecidableEq, Repr

/-- impl Default for JukeboxConfig (src/main.rs). -/
def JukeboxConfig.default : JukeboxConfig :=
  { autoplay := true, show_state := true, playlist_buffer := 1 }

/-- JukeBox from src/main.rs: the Orchestrator's state.  Channels are modelled
by oracles at the operations; `stream_state` is the observable value of the
currently held shared cell (None before the first successful Prepare). -/
structure JukeBox where
  queue : PlaylistQueue
  stream_state : Option StreamState
  cfg : JukeboxConfig
deriving DecidableEq, Repr

/-- JukeBox::new (src/main.rs). -/
def JukeBox.new (queue : PlaylistQueue) : JukeBox :=
  { queue := queue, stream_state := none, cfg := JukeboxConfig.default }

/-- JukeBox::play (src/main.rs): writes Play to the shared cell when one is
held; no-op otherwise. -/
def JukeBox.play (j : JukeBox) : JukeBox × List WriteEvent :=
  match j.stream_state with
  | some s => ({ j with stream_state := some .Play }, [⟨s, .Play, .orch⟩])
  | none => (j, [])

/-- JukeBox::pause (src/main.rs): writes Pause to the shared cell when one is
held; no-op otherwise. -/
def JukeBox.pause (j : JukeBox) : JukeBox × List WriteEvent :=
  match j.stream_state with
  | some s => ({ j with stream_state := some .Pause }, [⟨s, .Pause, .orch⟩])
  | none => (j, [])

/-- JukeBox::toggle_play (src/main.rs): Play becomes Pause, anything else
becomes Play; no-op when nothing is loaded.  (The source's Result is always
Ok.) -/
def JukeBox.toggle_play (j : JukeBox) : JukeBox × List WriteEvent :=
  match j.stream_state with
  | none => (j, [])
  | some s =>
    if s.is_playing then ({ j with stream_state := some .Pause }, [⟨s, .Pause, .orch⟩])
    else ({ j with stream_state := some .Play }, [⟨s, .Play, .orch⟩])

/-- JukeBox::load_and_prepare_stream (src/main.rs): first writes Stop to the
old cell when one is held, then performs the Load and Prepare round trips with
the Player Worker.  `load_ok` is the oracle for that handshake: on success the
held cell is replaced by the new engine's cell (seeded Pause; a creation, not a
write); on any failure (channel closed, Load error, Prepare error) a
PlayerErr is returned.  The show-state display is observation only and is
omitted. -/
def JukeBox.load_and_prepare_stream (j : JukeBox) (load_ok : Bool) :
    Except PlayerErr JukeBox × List WriteEvent :=
  let stopW : List WriteEvent :=
    match j.stream_state with
    | some s => [⟨s, .Stop, .orch⟩]
    | none => []
  if load_ok then (.ok { j with stream_state := some .Pause }, stopW)
  else (.error .load, stopW)

/-- JukeBox::prepare_current_song (src/main.rs): loads the track under the
cursor, or pauses at the one-past-end sentinel. -/
def JukeBox.prepare_current_song (j : JukeBox) (load_ok : Bool) :
    Except PlayerErr JukeBox × List WriteEvent :=
  match j.queue.current with
  | some _ => j.load_and_prepare_stream load_ok
  | none =>
    let (j', w) := j.pause
    (.ok j', w)

/-- JukeBox::prepare_next_song (src/main.rs): advances the queue; on a track,
loads it; on None (end of playlist), pauses.  Outer `none` is a panic
propagated from the queue. -/
def JukeBox.prepare_next_song (j : JukeBox) (load_ok : Bool) :
    Option (Except PlayerErr JukeBox × List WriteEvent) :=
  match j.queue.next with
  | none => none
  | some (some _, q') => some (JukeBox.load_and_prepare_stream { j with queue := q' } load_ok)
  | some (none, q') =>
    let (j', w) := JukeBox.pause { j with queue := q' }
    some (.ok j', w)

/-- JukeBox::play_previous_song (src/main.rs): retreats the queue; on a track,
loads it; on None, pauses.  Outer `none` is a panic propagated from the
queue. -/
def JukeBox.play_previous_song (j : JukeBox) (load_ok : Bool) :
    Option (Except PlayerErr JukeBox × List WriteEvent) :=
  match j.queue.next_back with
  | none => none
  | some (some _, q') => some (JukeBox.load_and_prepare_stream { j with queue := q' } load_ok)
  | some (none, q') =>
    let (j', w) := JukeBox.pause { j with queue := q' }
    some (.ok j', w)

/-- JukeBox::handle_command (src/main.rs).  Errors are erased to Unit as in the
source (Result<(), ()>).  Outer `none` is a panic: a queue panic, or the
`unreachable!` on Quit (the run loop breaks on Quit before calling this). -/
def JukeBox.handle_command (j : JukeBox) (cmd : Command) (load_ok : Bool) :
    Option (Except Unit JukeBox × List WriteEvent) :=
  match cmd with
  | .Next =>
    match j.prepare_next_song load_ok with
    | none => none
    | some (.error _, w) => some (.error (), w)
    | some (.ok j', w) =>
      let (j'', w2) := j'.play
      some (.ok j'', w ++ w2)
  | .Previous =>
    match j.play_previous_song load_ok with
    | none => none
    | some (.error _, w) => some (.error (), w)
    | some (.ok j', w) =>
      let (j'', w2) := j'.play
      some (.ok j'', w ++ w2)
  | .Restart =>
    let st := j.stream_state
    match j.prepare_current_song load_ok with
    | (.error _, w) => some (.error (), w)
    | (.ok j', w) =>
      if st = some .Play then
        let (j'', w2) := j'.play
        some (.ok j'', w ++ w2)
      else some (.ok j', w)
  | .TogglePlay =>
    let (j', w) := j.toggle_play
    some (.ok j', w)
  | .ToggleLoop =>
    some (.ok { j with queue := j.queue.set_looping (!j.queue.is_looping) }, [])
  | .ToggleAutoplay =>
    some (.ok { j with cfg := { j.cfg with autoplay := !j.cfg.autoplay } }, [])
  | .ToggleShowState =>
    some (.ok { j with cfg := { j.cfg with show_state := !j.cfg.show_state } }, [])
  | .Quit => none

/-- JukeBox::handle_event (src/main.rs): on Done, advance to the next song and,
if autoplay, set Playing; on StreamErr, return the error (which terminates the
Orchestrator loop).  Outer `none` is a queue panic. -/
def JukeBox.handle_event (j : JukeBox) (e : Event) (load_ok : Bool) :
    Option (Except PlayerErr JukeBox × List WriteEvent) :=
  match e with
  | .Done =>
    if j.cfg.autoplay then
      match j.prepare_next_song load_ok with
      | none => none
      | some (.error er, w) => some (.error er, w)
      | some (.ok j', w) =>
        let (j'', w2) := j'.play
        some (.ok j'', w ++ w2)
    else j.prepare_next_song load_ok
  | .StreamErr => some (.error .stream, [])

/-- run from src/main.rs, up to constructing the Orchestrator: an empty
playlist logs and returns without starting anything (`none`); otherwise the
JukeBox is built over a fresh queue. -/
def run (playlist : List String) : Option JukeBox :=
  if playlist.isEmpty then none
  else some (JukeBox.new (PlaylistQueue.new playlist))

/-- LoadResponse values of src/player_actor.rs: Ok, or the typed
error::Load variants Audio (AudioFile::from_path failed) and Stream
(AudioStreamBuilder::load failed). -/
inductive LoadReply
  | ok
  | errAudio
  | errStream
deriving DecidableEq, Repr

/-- PrepareResponse values of src/player_actor.rs: the stream-state handle, or
error::Play::NoStream. -/
inductive PrepareReply
  | ok (handle : StreamState)
  | errNoStream
deriving DecidableEq, Repr

/-- Outcome of a player_actor handler call: a normal return carrying the
source's Result<(), error::Channel>, or a panic. -/
inductive WorkerOutcome
  | retOk
  | retChanErr
  | panicked
deriving DecidableEq, Repr

/-- Result of AudioPlayerActor::handle_load (src/player_actor.rs): the worker's
stream slot afterwards, the replies actually delivered, and the outcome. -/
structure LoadResult where
  stream : Option AudioStream
  replies : List LoadReply
  outcome : WorkerOutcome
deriving DecidableEq, Repr

/-- AudioPlayerActor::handle_load (src/player_actor.rs).  `file_ok` is the
oracle for AudioFile::from_path, `build_ok` for AudioStreamBuilder::load
(whose successful product is `AudioStreamBuilder.load start_ok packets`), and
`reply_open` for the caller-supplied reply channel.  Every reply send uses `?`,
so a closed reply channel yields a graceful error::Channel return; the held
stream is replaced only on full success. -/
def AudioPlayerActor.handle_load (cur : Option AudioStream) (file_ok build_ok : Bool)
    (start_ok : Bool) (packets : List (PacketObs × Packet)) (reply_open : Bool) : LoadResult :=
  if !file_ok then
    { stream := cur, replies := if reply_open then [.errAudio] else [],
      outcome := if reply_open then .retOk else .retChanErr }
  else if !build_ok then
    { stream := cur, replies := if reply_open then [.errStream] else [],
      outcome := if reply_open then .retOk else .retChanErr }
  else
    { stream := some (AudioStreamBuilder.load start_ok packets),
      replies := if reply_open then [.ok] else [],
      outcome := if reply_open then .retOk else .retChanErr }

/-- Result of AudioPlayerActor::handle_prepare (src/player_actor.rs). -/
structure PrepareResult where
  replies : List PrepareReply
  events : List Event
  outcome : WorkerOutcome
deriving DecidableEq, Repr

/-- AudioPlayerActor::handle_prepare (src/player_actor.rs).  With no stream
loaded it replies NoStream through `?` (graceful on a closed channel).  With a
stream loaded the first reply send is unwrapped in the source
(`res_tx.send(Ok(stream.state())).unwrap()`), so a closed reply channel
panics.  Otherwise it runs AudioStream::load synchronously; a run error emits
Event::StreamErr, and a run that ends with the cell Done emits Event::Done,
each through `?` on the event channel (`event_open`). -/
def AudioPlayerActor.handle_prepare (cur : Option AudioStream)
    (reply_open event_open : Bool) : PrepareResult :=
  match cur with
  | none =>
    { replies := if reply_open then [.errNoStream] else [],
      events := [],
      outcome := if reply_open then .retOk else .retChanErr }
  | some stream =>
    if !reply_open then { replies := [], events := [], outcome := .panicked }
    else
      match (stream.load).2 with
      | .error _ =>
        { replies := [.ok stream.state],
          events := if event_open then [.StreamErr] else [],
          outcome := if event_open then .retOk else .retChanErr }
      | .ok fin =>
        if fin.is_done then
          { replies := [.ok stream.state],
            events := if event_open then [.Done] else [],
            outcome := if event_open then .retOk else .retChanErr }
        else
          { replies := [.ok stream.state], events := [], outcome := .retOk }

/-- One received player command with its oracles (src/player_actor.rs
Command). -/
inductive WorkerCmd
  | load (file_ok build_ok start_ok : Bool) (packets : List (PacketObs × Packet))
      (reply_open : Bool)
  | prepare (reply_open event_open : Bool)
deriving DecidableEq, Repr

/-- Fate of one iteration of the worker's run loop. -/
inductive WorkerLoop
  | continues
  | exitsGracefully
  | crashes
deriving DecidableEq, Repr

/-- One iteration of AudioPlayerActor::run (src/player_actor.rs): a closed
command channel (`recv_ok = false`) logs and breaks the loop; a handler's
error::Channel return is logged and the loop continues; a handler panic
crashes the thread. -/
def AudioPlayerActor.run_step (recv_ok : Bool) (cur : Option AudioStream) (cmd : WorkerCmd) :
    WorkerLoop × Option AudioStream :=
  if !recv_ok then (.exitsGracefully, cur)
  else
    match cmd with
    | .load file_ok build_ok start_ok packets reply_open =>
      let r := AudioPlayerActor.handle_load cur file_ok build_ok start_ok packets reply_open
      (.continues, r.stream)
    | .prepare reply_open event_open =>
      let r := AudioPlayerActor.handle_prepare cur reply_open event_open
      (if r.outcome = .panicked then .crashes else .continues, cur)

/-- Command-key constants from src/main.rs. -/
def CMD_KEY_QUIT : String := "q"

/-- Command-key constant from src/main.rs. -/
def CMD_KEY_PREVIOUS : String := "j"

/-- Command-key constant from src/main.rs. -/
def CMD_KEY_NEXT : String := "k"

/-- Command-key constant from src/main.rs. -/
def CMD_KEY_RESTART : String := "r"

/-- Command-key constant from src/main.rs. -/
def CMD_KEY_TOGGLE_PLAY : String := "p"

/-- Command-key constant from src/main.rs. -/
def CMD_KEY_TOGGLE_LOOP : String := "l"

/-- Command-key constant from src/main.rs. -/
def CMD_KEY_TOGGLE_AUTOPLAY : String := "a"

/-- Command-key constant from src/main.rs. -/
def CMD_KEY_TOGGLE_SHOW_STATE : String := "s"

/-- command_from_code (src/input_actor.rs): maps an input key token to a
Command.  The source's match has exactly four arms (quit, previous, next,
toggle-play) and a catch-all returning None. -/
def command_from_code (code : String) : Option Command :=
  if code = CMD_KEY_QUIT then some .Quit
  else if code = CMD_KEY_PREVIOUS then some .Previous
  else if code = CMD_KEY_NEXT then some .Next
  else if code = CMD_KEY_TOGGLE_PLAY then some .TogglePlay
  else none

/-- Input actor key-down callback body (src/input_actor.rs): an unmapped key
sends nothing; a mapped key is sent, and a failed send (Orchestrator gone)
flips the actor state to Closed so its loop breaks — no panic. -/
inductive InputFate
  | dropped
  | sent (cmd : Command)
  | closed
deriving DecidableEq, Repr

/-- Key-down callback of InputActor (src/input_actor.rs): drops unrecognized
keys silently; on a mapped key, a failed send marks the actor Closed
(graceful), otherwise the command is sent. -/
def InputActor.on_key (code : String) (send_ok : Bool) : InputFate :=
  match command_from_code code with
  | none => .dropped
  | some cmd => if send_ok then .sent cmd else .closed

/-- Producer/consumer state of the engine's ring buffer (src/lib.rs,
receive_and_queue_audio_frames).  `cap` is the fixed capacity, `occupied` the
samples currently buffered, `pendingBlocks` the lengths of the resampled
blocks the producer still has to push (one whole decoded-and-resampled frame
each), `ready` whether the producer's vacancy check for the head block has
passed, and `pushes` the lengths of the pushes performed so far, in order. -/
structure BufState where
  cap : Nat
  occupied : Nat
  pendingBlocks : List Nat
  ready : Bool
  pushes : List Nat
deriving DecidableEq, Repr

/-- Fresh ring buffer with the given capacity and the producer's block
queue. -/
def BufState.init (cap : Nat) (blocks : List Nat) : BufState :=
  { cap := cap, occupied := 0, pendingBlocks := blocks, ready := false, pushes := [] }

/-- Interleaved steps of the producer (the engine's decode loop) and the
consumer (the device callback) on the ring buffer.

observe: the producer's wait loop `while vacant_len < block.len` terminates,
i.e. it has seen vacancy at least the head block's length.
push: push_slice, which transfers min(vacant, len) samples — the producer
calls it only after its vacancy check.
pop: the device callback removing any number of buffered samples
(write_audio pops one sample at a time; consecutive pops are merged). -/
inductive BufStep : BufState → BufState → Prop
  | observe (s : BufState) (b : Nat) (rest : List Nat) :
      s.pendingBlocks = b :: rest → s.ready = false → b ≤ s.cap - s.occupied →
      BufStep s { s with ready := true }
  | push (s : BufState) (b : Nat) (rest : List Nat) :
      s.pendingBlocks = b :: rest → s.ready = true →
      BufStep s { s with
        occupied := s.occupied + min (s.cap - s.occupied) b,
        pendingBlocks := rest,
        ready := false,
        pushes := s.pushes ++ [min (s.cap - s.occupied) b] }
  | pop (s : BufState) (k : Nat) :
      k ≤ s.occupied →
      BufStep s { s with occupied := s.occupied - k }

deriving instance DecidableEq for Except

/-- Allowed-transition set exactly as claim C2 states it: Paused↔Playing by
the Orchestrator, any-state→Stopped by the Orchestrator, and
Playing/Paused→Finished by the engine. -/
def claim_allowed (w : WriteEvent) : Bool :=
  (w.who == .orch &&
    ((w.old == .Pause && w.new == .Play) || (w.old == .Play && w.new == .Pause) ||
      w.new == .Stop)) ||
  (w.who == .engine && (w.old == .Play || w.old == .Pause) && w.new == .Done)

/-- Amended allowed-transition set: additionally a write that leaves the value
unchanged, and the Orchestrator's Finished→Paused / Finished→Playing writes
(performed when handling end-of-playlist on a finished track's cell, and by
toggle-play on a finished track). -/
def amended_allowed (w : WriteEvent) : Bool :=
  w.old == w.new || claim_allowed w ||
  (w.who == .orch && w.old == .Done && (w.new == .Pause || w.new == .Play))

/-- PlaylistQueue.next at the one-past-end sentinel with looping off is a
no-op returning None. -/
theorem PlaylistQueue.next_at_sentinel (pl : List String) :
    PlaylistQueue.next ⟨pl, pl.length, ⟨false⟩⟩ = some (none, ⟨pl, pl.length, ⟨false⟩⟩) := by
  simp [PlaylistQueue.next, List.getElem?_eq_none (Nat.le_refl pl.length)]

/-- Claim C1 as stated is false on the code: with three tracks, looping off,
autoplay on, the cursor at the sentinel and the finished track's cell at Done,
handling the Done event leaves the cursor at the sentinel and does not crash,
but the resulting observable StreamState is Play, not Pause: the end-of-playlist
branch of prepare_next_song writes Pause, and the autoplay branch of
handle_event then unconditionally writes Play. -/
theorem C1_counterexample :
    JukeBox.handle_event
        ⟨⟨["a", "b", "c"], 3, ⟨false⟩⟩, some StreamState.Done, ⟨true, true, 1⟩⟩
        Event.Done true
      = some (Except.ok
          ⟨⟨["a", "b", "c"], 3, ⟨false⟩⟩, some StreamState.Play, ⟨true, true, 1⟩⟩,
          [⟨StreamState.Done, StreamState.Pause, Writer.orch⟩,
           ⟨StreamState.Pause, StreamState.Play, Writer.orch⟩]) ∧
    some StreamState.Play ≠ some StreamState.Pause := by
  decide

/-- Claim C1 amended: when handle_event receives Done with the cursor at the
one-past-end sentinel (looping off, autoplay on, a stream-state cell held),
advancing the queue is a no-op (the cursor stays at the sentinel), nothing
panics, and the StreamState observable by the Orchestrator settles to Play,
not Pause: prepare_next_song writes Pause at end-of-playlist and the autoplay
branch then writes Play. -/
theorem C1_amended (pl : List String) (s : StreamState) (sh : Bool) (pb : Nat) (lo : Bool) :
    JukeBox.handle_event ⟨⟨pl, pl.length, ⟨false⟩⟩, some s, ⟨true, sh, pb⟩⟩ Event.Done lo
      = some (Except.ok ⟨⟨pl, pl.length, ⟨false⟩⟩, some StreamState.Play, ⟨true, sh, pb⟩⟩,
          [⟨s, StreamState.Pause, Writer.orch⟩,
           ⟨StreamState.Pause, StreamState.Play, Writer.orch⟩]) := by
  simp [JukeBox.handle_event, JukeBox.prepare_next_song, PlaylistQueue.next_at_sentinel,
    JukeBox.pause, JukeBox.play]

/-- Claim C3 is right and the code is wrong: AudioPlayerActor::handle_prepare
unwraps the first reply send, so a closed reply channel panics the Player
Worker (contradicting the function's own doc, "`Err` if the response could not
be handled", and the graceful `?` used by every other send).  First conjunct:
handle_prepare with a stream loaded and the reply channel closed panics before
touching the stream.  Second: that panic crashes the worker's run loop.
Third: a closed command channel still exits the run loop gracefully. -/
theorem C3_prepare_reply_unwrap_panics :
    (AudioPlayerActor.handle_prepare (some (AudioStreamBuilder.load true [])) false true).outcome
        = WorkerOutcome.panicked ∧
    (AudioPlayerActor.run_step true (some (AudioStreamBuilder.load true []))
        (WorkerCmd.prepare false true)).1 = WorkerLoop.crashes ∧
    (AudioPlayerActor.run_step false none (WorkerCmd.prepare true true)).1
        = WorkerLoop.exitsGracefully := by
  decide

/-- Claim C9 is right and the code is wrong: the module doc of src/main.rs
lists eight command keys (q, j, k, r, p, l, a, s) and src/main.rs defines all
eight constants, but command_from_code (src/input_actor.rs) maps only quit,
previous, next and toggle-play; the restart, toggle-loop, toggle-autoplay and
toggle-show-state keys fall through to the catch-all and are dropped. -/
theorem C9_symbol_table_incomplete :
    command_from_code CMD_KEY_QUIT = some Command.Quit ∧
    command_from_code CMD_KEY_PREVIOUS = some Command.Previous ∧
    command_from_code CMD_KEY_NEXT = some Command.Next ∧
    command_from_code CMD_KEY_TOGGLE_PLAY = some Command.TogglePlay ∧
    command_from_code CMD_KEY_RESTART = none ∧
    command_from_code CMD_KEY_TOGGLE_LOOP = none ∧
    command_from_code CMD_KEY_TOGGLE_AUTOPLAY = none ∧
    command_from_code CMD_KEY_TOGGLE_SHOW_STATE = none := by
  decide

/-- Claim C6 as stated is false on the code: with looping enabled, playlist
length 2 and the cursor at the sentinel value 2, next wraps the cursor to 0,
whereas the claim's (cursor+1) mod L predicts 1. -/
theorem C6_counterexample :
    PlaylistQueue.next ⟨["a", "b"], 2, ⟨true⟩⟩
        = some (some "a", ⟨["a", "b"], 0, ⟨true⟩⟩) ∧
    (2 + 1) % 2 = 1 ∧ (0 : Nat) ≠ 1 := by
  decide

/-- PlaylistQueue.next with looping on a cursor below the length moves the
cursor to (cursor + 1) mod length and returns a track. -/
theorem next_loop_eq (pl : List String) (i : Nat) (hi : i < pl.length) :
    ∃ t, PlaylistQueue.next ⟨pl, i, ⟨true⟩⟩
        = some (some t, ⟨pl, (i + 1) % pl.length, ⟨true⟩⟩) := by
  rcases Nat.lt_or_ge (i + 1) pl.length with h | h
  · exact ⟨pl.get ⟨i + 1, h⟩, by
      simp [PlaylistQueue.next, Nat.not_le.mpr h, Nat.mod_eq_of_lt h,
        List.getElem?_eq_getElem h]⟩
  · have hL : pl.length = i + 1 := Nat.le_antisymm h hi
    have h0 : 0 < pl.length := Nat.lt_of_le_of_lt (Nat.zero_le i) hi
    exact ⟨pl.get ⟨0, h0⟩, by
      simp [PlaylistQueue.next, h, List.getElem?_eq_getElem h0, hL]⟩

/-- PlaylistQueue.next_back with looping on a cursor below the length moves
the cursor to (cursor + length − 1) mod length and returns a track. -/
theorem next_back_loop_eq (pl : List String) (i : Nat) (hi : i < pl.length) :
    ∃ t, PlaylistQueue.next_back ⟨pl, i, ⟨true⟩⟩
        = some (some t, ⟨pl, (i + pl.length - 1) % pl.length, ⟨true⟩⟩) := by
  rcases i with _ | i'
  · obtain ⟨m, hm⟩ : ∃ m, pl.length = m + 1 := ⟨pl.length - 1, by omega⟩
    have hmlt : m < pl.length := by omega
    have he : (0 + pl.length - 1) % pl.length = m := by
      rw [hm]; simp [Nat.mod_eq_of_lt (Nat.lt_succ_self m)]
    exact ⟨pl.get ⟨m, hmlt⟩, by
      simp [PlaylistQueue.next_back, hm, List.getElem?_eq_getElem hmlt, he]⟩
  · have hl : i' < pl.length := by omega
    have he : (i' + 1 + pl.length - 1) % pl.length = i' := by
      have h2 : i' + 1 + pl.length - 1 = i' + pl.length := by omega
      rw [h2, Nat.add_mod_right]; exact Nat.mod_eq_of_lt hl
    exact ⟨pl.get ⟨i', hl⟩, by
      simp [PlaylistQueue.next_back, List.getElem?_eq_getElem hl, he, Nat.mod_eq_of_lt hl]⟩

/-- Claim C6 amended: with looping enabled and any starting cursor strictly
below L (the claim's range [0, L] shrunk to [0, L−1], which the counterexample
at the sentinel forces), next moves the cursor to (cursor+1) mod L, next_back
moves it to (cursor−1) mod L (written (cursor+L−1) mod L over Nat), and a next
immediately followed by a next_back, or vice versa, returns the queue to its
original state. -/
theorem C6_amended (q : PlaylistQueue) (hloop : q.cfg.loop_playlist = true)
    (hi : q.index < q.playlist.length) :
    (∃ t, q.next = some (some t, { q with index := (q.index + 1) % q.playlist.length })) ∧
    (∃ t, q.next_back = some (some t,
        { q with index := (q.index + q.playlist.length - 1) % q.playlist.length })) ∧
    (∀ r q₁, q.next = some (r, q₁) → ∃ r₁, q₁.next_back = some (r₁, q)) ∧
    (∀ r q₁, q.next_back = some (r, q₁) → ∃ r₁, q₁.next = some (r₁, q)) := by
  obtain ⟨pl, i, ⟨lpb⟩⟩ := q
  have hb : lpb = true := hloop
  subst hb
  have hi' : i < pl.length := hi
  have hL0 : 0 < pl.length := Nat.lt_of_le_of_lt (Nat.zero_le i) hi'
  refine ⟨next_loop_eq pl i hi', next_back_loop_eq pl i hi', ?_, ?_⟩
  · intro r q₁ hn
    obtain ⟨t, ht⟩ := next_loop_eq pl i hi'
    rw [ht] at hn
    simp only [Option.some.injEq, Prod.mk.injEq] at hn
    obtain ⟨-, hq⟩ := hn
    subst hq
    have hmod : ((i + 1) % pl.length + pl.length - 1) % pl.length = i := by
      rcases Nat.lt_or_ge (i + 1) pl.length with h | h
      · rw [Nat.mod_eq_of_lt h]
        have h2 : i + 1 + pl.length - 1 = i + pl.length := by omega
        rw [h2, Nat.add_mod_right]; exact Nat.mod_eq_of_lt hi'
      · have hL : pl.length = i + 1 := Nat.le_antisymm h hi'
        rw [hL]
        simp [Nat.mod_self, Nat.mod_eq_of_lt (Nat.lt_succ_self i)]
    obtain ⟨t', ht'⟩ := next_back_loop_eq pl ((i + 1) % pl.length) (Nat.mod_lt _ hL0)
    rw [hmod] at ht'
    exact ⟨some t', ht'⟩
  · intro r q₁ hn
    obtain ⟨t, ht⟩ := next_back_loop_eq pl i hi'
    rw [ht] at hn
    simp only [Option.some.injEq, Prod.mk.injEq] at hn
    obtain ⟨-, hq⟩ := hn
    subst hq
    have hmod : ((i + pl.length - 1) % pl.length + 1) % pl.length = i := by
      rcases i with _ | i'
      · obtain ⟨m, hm⟩ : ∃ m, pl.length = m + 1 := ⟨pl.length - 1, by omega⟩
        rw [hm]
        have h1 : (0 + (m + 1) - 1) % (m + 1) = m := by
          simp [Nat.mod_eq_of_lt (Nat.lt_succ_self m)]
        rw [h1]
        simp [Nat.mod_self]
      · have hl : i' < pl.length := by omega
        have h1 : (i' + 1 + pl.length - 1) % pl.length = i' := by
          have h2 : i' + 1 + pl.length - 1 = i' + pl.length := by omega
          rw [h2, Nat.add_mod_right]; exact Nat.mod_eq_of_lt hl
        rw [h1]
        exact Nat.mod_eq_of_lt hi'
    obtain ⟨t', ht'⟩ := next_loop_eq pl ((i + pl.length - 1) % pl.length) (Nat.mod_lt _ hL0)
    rw [hmod] at ht'
    exact ⟨some t', ht'⟩

/-- Witness for C6_amended at playlist [a, b, c], cursor 1, looping on. -/
theorem C6_amended_witness :
    (∃ t, PlaylistQueue.next ⟨["a", "b", "c"], 1, ⟨true⟩⟩
        = some (some t, ⟨["a", "b", "c"], (1 + 1) % 3, ⟨true⟩⟩)) ∧
    (∃ t, PlaylistQueue.next_back ⟨["a", "b", "c"], 1, ⟨true⟩⟩
        = some (some t, ⟨["a", "b", "c"], (1 + 3 - 1) % 3, ⟨true⟩⟩)) ∧
    (∀ r q₁, PlaylistQueue.next ⟨["a", "b", "c"], 1, ⟨true⟩⟩ = some (r, q₁) →
        ∃ r₁, q₁.next_back = some (r₁, ⟨["a", "b", "c"], 1, ⟨true⟩⟩)) ∧
    (∀ r q₁, PlaylistQueue.next_back ⟨["a", "b", "c"], 1, ⟨true⟩⟩ = some (r, q₁) →
        ∃ r₁, q₁.next = some (r₁, ⟨["a", "b", "c"], 1, ⟨true⟩⟩)) :=
  C6_amended ⟨["a", "b", "c"], 1, ⟨true⟩⟩ rfl (by decide)

/-- PlaylistQueue.next with looping off never panics, keeps the playlist and
config, and keeps the cursor within [0, length]. -/
theorem next_nonloop_inv (pl : List String) (i : Nat) (hi : i ≤ pl.length) :
    ∃ r i', PlaylistQueue.next ⟨pl, i, ⟨false⟩⟩ = some (r, ⟨pl, i', ⟨false⟩⟩) ∧
      i' ≤ pl.length := by
  rcases Nat.lt_or_ge i pl.length with h | h
  · exact ⟨pl[i+1]?, i + 1, by simp [PlaylistQueue.next, h], h⟩
  · have he : i = pl.length := Nat.le_antisymm hi h
    subst he
    exact ⟨none, pl.length, PlaylistQueue.next_at_sentinel pl, Nat.le_refl _⟩

/-- PlaylistQueue.next_back with looping off never panics, keeps the playlist
and config, and keeps the cursor within [0, length]. -/
theorem next_back_nonloop_inv (pl : List String) (i : Nat) (hi : i ≤ pl.length) :
    ∃ r i', PlaylistQueue.next_back ⟨pl, i, ⟨false⟩⟩ = some (r, ⟨pl, i', ⟨false⟩⟩) ∧
      i' ≤ pl.length := by
  rcases i with _ | i'
  · exact ⟨none, 0, by simp [PlaylistQueue.next_back], Nat.zero_le _⟩
  · have hl : i' < pl.length := by omega
    exact ⟨some (pl.get ⟨i', hl⟩), i', by
      simp [PlaylistQueue.next_back, List.getElem?_eq_getElem hl], by omega⟩

/-- Any sequence of navigation operations with looping off never panics, keeps
the playlist and config, and keeps the cursor within [0, length]. -/
theorem applyNavs_nonloop_inv (pl : List String) (ops : List NavOp) :
    ∀ i, i ≤ pl.length →
      ∃ i', PlaylistQueue.applyNavs ⟨pl, i, ⟨false⟩⟩ ops = some ⟨pl, i', ⟨false⟩⟩ ∧
        i' ≤ pl.length := by
  induction ops with
  | nil => exact fun i hi => ⟨i, rfl, hi⟩
  | cons op ops ih =>
    intro i hi
    cases op with
    | next =>
      obtain ⟨r, i', hn, hi'⟩ := next_nonloop_inv pl i hi
      obtain ⟨i'', hs, hi''⟩ := ih i' hi'
      exact ⟨i'', by simp [PlaylistQueue.applyNavs, PlaylistQueue.applyNav, hn, hs], hi''⟩
    | next_back =>
      obtain ⟨r, i', hn, hi'⟩ := next_back_nonloop_inv pl i hi
      obtain ⟨i'', hs, hi''⟩ := ih i' hi'
      exact ⟨i'', by simp [PlaylistQueue.applyNavs, PlaylistQueue.applyNav, hn, hs], hi''⟩

/-- Claim C5: with looping disabled, playlist length L ≥ 1 and a starting
cursor in [0, L], any sequence of next / next_back calls keeps the cursor in
[0, L] (and never panics); at the sentinel L, next returns None and leaves the
queue unchanged (so it is idempotent); at cursor 0, next_back returns None
without moving the queue. -/
theorem C5_nonlooping (q : PlaylistQueue) (hloop : q.cfg.loop_playlist = false)
    (hL : 1 ≤ q.playlist.length) (hi : q.index ≤ q.playlist.length) :
    (∀ ops : List NavOp, ∃ q', q.applyNavs ops = some q' ∧
        q'.playlist = q.playlist ∧ q'.cfg = q.cfg ∧ q'.index ≤ q.playlist.length) ∧
    (q.index = q.playlist.length → q.next = some (none, q)) ∧
    (q.index = 0 → q.next_back = some (none, q)) := by
  obtain ⟨pl, i, ⟨lpb⟩⟩ := q
  have hb : lpb = false := hloop
  subst hb
  have hi' : i ≤ pl.length := hi
  refine ⟨?_, ?_, ?_⟩
  · intro ops
    obtain ⟨i', h1, h2⟩ := applyNavs_nonloop_inv pl ops i hi'
    exact ⟨⟨pl, i', ⟨false⟩⟩, h1, rfl, rfl, h2⟩
  · intro hs
    have hs' : i = pl.length := hs
    subst hs'
    exact PlaylistQueue.next_at_sentinel pl
  · intro h0
    have h0' : i = 0 := h0
    subst h0'
    simp [PlaylistQueue.next_back]

/-- Witness for C5_nonlooping at playlist [a], cursor at the sentinel 1,
looping off. -/
theorem C5_witness :
    (∀ ops : List NavOp, ∃ q', PlaylistQueue.applyNavs ⟨["a"], 1, ⟨false⟩⟩ ops = some q' ∧
        q'.playlist = ["a"] ∧ q'.cfg = ⟨false⟩ ∧ q'.index ≤ 1) ∧
    ((1 : Nat) = 1 → PlaylistQueue.next ⟨["a"], 1, ⟨false⟩⟩
        = some (none, ⟨["a"], 1, ⟨false⟩⟩)) ∧
    ((1 : Nat) = 0 → PlaylistQueue.next_back ⟨["a"], 1, ⟨false⟩⟩
        = some (none, ⟨["a"], 1, ⟨false⟩⟩)) :=
  C5_nonlooping ⟨["a"], 1, ⟨false⟩⟩ rfl (by decide) (by decide)

/-- Claim C10: a freshly constructed PlaylistQueue loops by default
(AudioPlayConfig::default), and on an empty playlist both next (out-of-bounds
index) and next_back (usize underflow) panic; with length ≥ 1 and the cursor in
its invariant range both operations are total; and run (src/main.rs) refuses to
start on an empty playlist. -/
theorem C10_empty_playlist_partial :
    AudioPlayConfig.default.loop_playlist = true ∧
    (PlaylistQueue.new []).next = none ∧
    (PlaylistQueue.new []).next_back = none ∧
    (∀ q : PlaylistQueue, q.cfg.loop_playlist = true → 1 ≤ q.playlist.length →
        q.index ≤ q.playlist.length →
        (∃ x, q.next = some x) ∧ (∃ x, q.next_back = some x)) ∧
    run [] = none := by
  refine ⟨rfl, by decide, by decide, ?_, rfl⟩
  intro q hloop hL hi
  obtain ⟨pl, i, ⟨lpb⟩⟩ := q
  have hb : lpb = true := hloop
  subst hb
  have hL' : 1 ≤ pl.length := hL
  have hi' : i ≤ pl.length := hi
  constructor
  · by_cases h : pl.length ≤ i + 1
    · have h0 : 0 < pl.length := hL'
      exact ⟨(some (pl.get ⟨0, h0⟩), ⟨pl, 0, ⟨true⟩⟩),
        by simp [PlaylistQueue.next, h, List.getElem?_eq_getElem h0]⟩
    · have hlt : i + 1 < pl.length := Nat.lt_of_not_le h
      exact ⟨(some (pl.get ⟨i + 1, hlt⟩), ⟨pl, i + 1, ⟨true⟩⟩),
        by simp [PlaylistQueue.next, h, List.getElem?_eq_getElem hlt]⟩
  · rcases Nat.lt_or_ge i pl.length with hlt | hge
    · obtain ⟨t, ht⟩ := next_back_loop_eq pl i hlt
      exact ⟨_, ht⟩
    · have he : i = pl.length := Nat.le_antisymm hi' hge
      subst he
      obtain ⟨m, hm⟩ : ∃ m, pl.length = m + 1 := ⟨pl.length - 1, by omega⟩
      have hmlt : m < pl.length := by omega
      refine ⟨(some (pl.get ⟨m, hmlt⟩), ⟨pl, m, ⟨true⟩⟩), ?_⟩
      simp [PlaylistQueue.next_back, hm, List.getElem?_eq_getElem hmlt]

/-- Witness for the totality part of C10 at playlist [a], cursor 0. -/
theorem C10_witness :
    (∃ x, PlaylistQueue.next ⟨["a"], 0, ⟨true⟩⟩ = some x) ∧
    (∃ x, PlaylistQueue.next_back ⟨["a"], 0, ⟨true⟩⟩ = some x) :=
  C10_empty_playlist_partial.2.2.2.1 ⟨["a"], 0, ⟨true⟩⟩ rfl (by decide) (by decide)

/-- Claim C7: with both channels open, a Prepare with no engine loaded replies
NoStream; with an engine loaded it first replies the engine's StreamState
handle (which AudioStreamBuilder.load seeds Pause at construction) and runs
the engine synchronously; afterwards Event::Done is emitted iff the run
succeeded with the state Finished (Done), Event::StreamErr is emitted iff the
run itself failed, and a run that returned because Stop was observed emits no
event at all. -/
theorem C7_prepare_contract (stream : AudioStream) :
    (∀ so pkts, (AudioStreamBuilder.load so pkts).state = StreamState.Pause) ∧
    (AudioPlayerActor.handle_prepare none true true).replies = [PrepareReply.errNoStream] ∧
    (AudioPlayerActor.handle_prepare (some stream) true true).replies
        = [PrepareReply.ok stream.state] ∧
    ((AudioPlayerActor.handle_prepare (some stream) true true).events = [Event.Done]
        ↔ (stream.load).2 = Except.ok StreamState.Done) ∧
    ((AudioPlayerActor.handle_prepare (some stream) true true).events = [Event.StreamErr]
        ↔ (stream.load).2 = Except.error ()) ∧
    ((stream.load).2 = Except.ok StreamState.Stop →
        (AudioPlayerActor.handle_prepare (some stream) true true).events = []) := by
  refine ⟨fun so pkts => rfl, rfl, ?_, ?_, ?_, ?_⟩
  · rcases h : (stream.load).2 with e | fin
    · simp [AudioPlayerActor.handle_prepare, h]
    · rcases fin <;> simp [AudioPlayerActor.handle_prepare, h, StreamState.is_done]
  · rcases h : (stream.load).2 with e | fin
    · cases e; simp [AudioPlayerActor.handle_prepare, h]
    · rcases fin <;> simp [AudioPlayerActor.handle_prepare, h, StreamState.is_done]
  · rcases h : (stream.load).2 with e | fin
    · cases e; simp [AudioPlayerActor.handle_prepare, h]
    · rcases fin <;> simp [AudioPlayerActor.handle_prepare, h, StreamState.is_done]
  · intro h
    simp [AudioPlayerActor.handle_prepare, h, StreamState.is_done]

/-- Witness for C7 at an engine whose run observes Stop at the first packet:
no event is emitted. -/
theorem C7_witness :
    (AudioPlayerActor.handle_prepare
        (some ⟨StreamState.Pause, true, [(PacketObs.stop, ⟨true, true⟩)]⟩) true true).events
      = [] :=
  (C7_prepare_contract
      ⟨StreamState.Pause, true, [(PacketObs.stop, ⟨true, true⟩)]⟩).2.2.2.2.2 (by decide)

/-- Claim C8: a Load whose open or build step fails replies the matching typed
error, leaves the worker's held engine unchanged, returns gracefully, and the
worker loop continues serving requests; the held engine is replaced exactly
when both steps succeed, with an Ok reply. -/
theorem C8_load_failure_graceful (cur : Option AudioStream) (fo bo so : Bool)
    (pkts : List (PacketObs × Packet)) :
    ((fo = false ∨ bo = false) →
      (AudioPlayerActor.handle_load cur fo bo so pkts true).stream = cur ∧
      ((AudioPlayerActor.handle_load cur fo bo so pkts true).replies = [LoadReply.errAudio] ∨
        (AudioPlayerActor.handle_load cur fo bo so pkts true).replies = [LoadReply.errStream]) ∧
      (AudioPlayerActor.handle_load cur fo bo so pkts true).outcome = WorkerOutcome.retOk ∧
      (AudioPlayerActor.run_step true cur (WorkerCmd.load fo bo so pkts true)).1
          = WorkerLoop.continues) ∧
    (fo = true → bo = true →
      (AudioPlayerActor.handle_load cur fo bo so pkts true).stream
          = some (AudioStreamBuilder.load so pkts) ∧
      (AudioPlayerActor.handle_load cur fo bo so pkts true).replies = [LoadReply.ok]) := by
  constructor
  · rintro (rfl | rfl)
    · simp [AudioPlayerActor.handle_load, AudioPlayerActor.run_step]
    · cases fo <;>
        simp [AudioPlayerActor.handle_load, AudioPlayerActor.run_step]
  · rintro rfl rfl
    simp [AudioPlayerActor.handle_load]

/-- Witness for C8 at an unreadable file with no engine held. -/
theorem C8_witness :
    (AudioPlayerActor.handle_load none false true true [] true).stream = none ∧
    ((AudioPlayerActor.handle_load none false true true [] true).replies = [LoadReply.errAudio] ∨
      (AudioPlayerActor.handle_load none false true true [] true).replies = [LoadReply.errStream]) ∧
    (AudioPlayerActor.handle_load none false true true [] true).outcome = WorkerOutcome.retOk ∧
    (AudioPlayerActor.run_step true none (WorkerCmd.load false true true [] true)).1
        = WorkerLoop.continues :=
  (C8_load_failure_graceful none false true true []).1 (Or.inl rfl)

/-- Invariant of the ring-buffer system when every resampled block has length
B: every push so far moved exactly B samples, every pending block has length
B, and whenever the producer's vacancy check has passed, the vacancy still
covers the head block. -/
def BufInv (B : Nat) (s : BufState) : Prop :=
  (∀ x ∈ s.pushes, x = B) ∧ (∀ b ∈ s.pendingBlocks, b = B) ∧
  (s.ready = true → ∀ b rest, s.pendingBlocks = b :: rest → b ≤ s.cap - s.occupied)

/-- Initial buffer states satisfy the invariant. -/
theorem bufInv_init (cap B : Nat) (blocks : List Nat) (hb : ∀ b ∈ blocks, b = B) :
    BufInv B (BufState.init cap blocks) := by
  refine ⟨by simp [BufState.init], ?_, by simp [BufState.init]⟩
  simpa [BufState.init] using hb

/-- Every buffer step preserves the invariant; in particular a push transfers
exactly the head block (consumer pops only grow the vacancy between the
producer's check and its push). -/
theorem bufInv_step {B : Nat} {s s' : BufState} (h : BufStep s s') (hs : BufInv B s) :
    BufInv B s' := by
  obtain ⟨hp, hpend, hready⟩ := hs
  cases h with
  | observe b rest hpb hr hle =>
    refine ⟨hp, hpend, fun _ b' rest' hpb' => ?_⟩
    dsimp only at hpb' ⊢
    rw [hpb] at hpb'
    cases hpb'
    exact hle
  | push b rest hpb hr =>
    have hble : b ≤ s.cap - s.occupied := hready hr b rest hpb
    have hmin : min (s.cap - s.occupied) b = b := min_eq_right hble
    refine ⟨?_, ?_, by simp⟩
    · intro x hx
      dsimp only at hx
      rcases List.mem_append.mp hx with hx | hx
      · exact hp x hx
      · have hxb : x = min (s.cap - s.occupied) b := List.mem_singleton.mp hx
        rw [hxb, hmin]
        exact hpend b (by rw [hpb]; exact List.mem_cons_self _ _)
    · intro b' hb'
      dsimp only at hb'
      exact hpend b' (by rw [hpb]; exact List.mem_cons_of_mem _ hb')
  | pop k hk =>
    refine ⟨hp, hpend, fun hr' b' rest' hpb' => ?_⟩
    dsimp only at hr' hpb' ⊢
    have hle := hready hr' b' rest' hpb'
    omega

/-- The invariant holds in every state reachable from an initial buffer
state. -/
theorem bufInv_reach {B : Nat} {s s' : BufState}
    (h : Relation.ReflTransGen BufStep s s') (hs : BufInv B s) : BufInv B s' := by
  induction h with
  | refl => exact hs
  | tail _ hstep ih => exact bufInv_step hstep ih

/-- Sum of a constant list. -/
theorem sum_of_const {B : Nat} :
    ∀ l : List Nat, (∀ x ∈ l, x = B) → l.sum = B * l.length := by
  intro l
  induction l with
  | nil => simp
  | cons x xs ih =>
    intro h
    have hx : x = B := h x (List.mem_cons_self _ _)
    have hs : xs.sum = B * xs.length := ih fun y hy => h y (List.mem_cons_of_mem _ hy)
    simp [hx, hs, Nat.mul_succ, Nat.add_comm]

/-- Claim C4: for blocks of a fixed resampled length B and any buffer capacity
at least B, in every state reachable by interleaving producer steps (vacancy
check, then push_slice) and consumer pops, every push transferred exactly one
whole block, so the cumulative sample count made visible to the consumer is a
whole multiple of B — the producer waits instead of performing a partial
push. -/
theorem C4_whole_blocks (cap B : Nat) (hcap : B ≤ cap) (blocks : List Nat)
    (hb : ∀ b ∈ blocks, b = B) (s : BufState)
    (h : Relation.ReflTransGen BufStep (BufState.init cap blocks) s) :
    (∀ x ∈ s.pushes, x = B) ∧ s.pushes.sum = B * s.pushes.length := by
  have hinv := bufInv_reach h (bufInv_init cap B blocks hb)
  exact ⟨hinv.1, sum_of_const s.pushes hinv.1⟩

/-- Witness for C4: capacity 4, block length 2; after one observe and one push
the push log is [2], a whole block. -/
theorem C4_witness :
    (∀ x ∈ ([2] : List Nat), x = 2) ∧
    ([2] : List Nat).sum = 2 * ([2] : List Nat).length :=
  C4_whole_blocks 4 2 (by decide) [2, 2] (by decide) ⟨4, 2, [2], false, [2]⟩
    (Relation.ReflTransGen.tail
      (Relation.ReflTransGen.tail Relation.ReflTransGen.refl
        (BufStep.observe _ 2 [2] rfl rfl (by decide)))
      (BufStep.push _ 2 [2] rfl rfl))

/-- Writes of Stop by the Orchestrator are allowed from any old value. -/
theorem amended_stop_ok (s : StreamState) :
    amended_allowed ⟨s, .Stop, .orch⟩ = true := by
  cases s <;> rfl

/-- Writes of Pause by the Orchestrator are allowed from any old value other
than Stop. -/
theorem amended_pause_ok (s : StreamState) (h : s ≠ .Stop) :
    amended_allowed ⟨s, .Pause, .orch⟩ = true := by
  cases s <;> first | rfl | exact absurd rfl h

/-- Writes of Play by the Orchestrator are allowed from any old value other
than Stop. -/
theorem amended_play_ok (s : StreamState) (h : s ≠ .Stop) :
    amended_allowed ⟨s, .Play, .orch⟩ = true := by
  cases s <;> first | rfl | exact absurd rfl h

/-- All writes of JukeBox.play are in the amended allowed set, provided the
held cell is not at Stop. -/
theorem play_writes_ok (j : JukeBox) (h : j.stream_state ≠ some .Stop) :
    ∀ w ∈ (j.play).2, amended_allowed w = true := by
  cases hs : j.stream_state with
  | none => simp [JukeBox.play, hs]
  | some s =>
    intro w hw
    simp [JukeBox.play, hs] at hw
    subst hw
    exact amended_play_ok s fun he => h (by rw [hs, he])

/-- All writes of JukeBox.pause are in the amended allowed set, provided the
held cell is not at Stop. -/
theorem pause_writes_ok (j : JukeBox) (h : j.stream_state ≠ some .Stop) :
    ∀ w ∈ (j.pause).2, amended_allowed w = true := by
  cases hs : j.stream_state with
  | none => simp [JukeBox.pause, hs]
  | some s =>
    intro w hw
    simp [JukeBox.pause, hs] at hw
    subst hw
    exact amended_pause_ok s fun he => h (by rw [hs, he])

/-- All writes of JukeBox.toggle_play are in the amended allowed set, provided
the held cell is not at Stop. -/
theorem toggle_writes_ok (j : JukeBox) (h : j.stream_state ≠ some .Stop) :
    ∀ w ∈ (j.toggle_play).2, amended_allowed w = true := by
  cases hs : j.stream_state with
  | none => simp [JukeBox.toggle_play, hs]
  | some s =>
    intro w hw
    have hns : s ≠ .Stop := fun he => h (by rw [hs, he])
    cases s <;> simp [JukeBox.toggle_play, hs, StreamState.is_playing] at hw <;>
      (subst hw; first | rfl | exact absurd rfl hns)

/-- All writes of JukeBox.load_and_prepare_stream (the Stop on the old cell)
are in the amended allowed set, from any old value. -/
theorem lap_writes_ok (j : JukeBox) (lo : Bool) :
    ∀ w ∈ (j.load_and_prepare_stream lo).2, amended_allowed w = true := by
  cases hs : j.stream_state with
  | none => cases lo <;> simp [JukeBox.load_and_prepare_stream, hs]
  | some s =>
    intro w hw
    cases lo <;> simp [JukeBox.load_and_prepare_stream, hs] at hw <;>
      (subst hw; exact amended_stop_ok s)

/-- A successful load_and_prepare_stream leaves the fresh cell at Pause. -/
theorem lap_ok_state (j : JukeBox) (lo : Bool) (j' : JukeBox)
    (h : (j.load_and_prepare_stream lo).1 = .ok j') : j'.stream_state = some .Pause := by
  cases lo with
  | false => simp [JukeBox.load_and_prepare_stream] at h
  | true =>
    simp [JukeBox.load_and_prepare_stream] at h
    subst h
    rfl

/-- JukeBox.pause leaves the held cell at Pause or leaves it absent. -/
theorem pause_state_ok (j : JukeBox) :
    (j.pause).1.stream_state = none ∨ (j.pause).1.stream_state = some .Pause := by
  cases hs : j.stream_state <;> simp [JukeBox.pause, hs]

/-- All writes of prepare_next_song are in the amended allowed set, provided
the held cell is not at Stop. -/
theorem pns_writes_ok (j : JukeBox) (lo : Bool) (h : j.stream_state ≠ some .Stop) :
    ∀ res, j.prepare_next_song lo = some res → ∀ w ∈ res.2, amended_allowed w = true := by
  intro res hres
  unfold JukeBox.prepare_next_song at hres
  rcases hq : j.queue.next with _ | ⟨t, q'⟩ <;> rw [hq] at hres
  · cases hres
  · rcases t with _ | tt
    · injection hres with hres
      subst hres
      exact pause_writes_ok { j with queue := q' } h
    · injection hres with hres
      subst hres
      exact lap_writes_ok { j with queue := q' } lo

/-- A successful prepare_next_song leaves the cell absent or at Pause. -/
theorem pns_state_ok (j : JukeBox) (lo : Bool) (res : Except PlayerErr JukeBox × List WriteEvent)
    (j' : JukeBox) (hres : j.prepare_next_song lo = some res) (hok : res.1 = .ok j') :
    j'.stream_state = none ∨ j'.stream_state = some .Pause := by
  unfold JukeBox.prepare_next_song at hres
  rcases hq : j.queue.next with _ | ⟨t, q'⟩ <;> rw [hq] at hres
  · cases hres
  · rcases t with _ | tt
    · injection hres with hres
      subst hres
      simp only at hok
      injection hok with hok
      subst hok
      exact pause_state_ok { j with queue := q' }
    · injection hres with hres
      subst hres
      exact Or.inr (lap_ok_state { j with queue := q' } lo j' hok)

/-- All writes of play_previous_song are in the amended allowed set, provided
the held cell is not at Stop. -/
theorem pps_writes_ok (j : JukeBox) (lo : Bool) (h : j.stream_state ≠ some .Stop) :
    ∀ res, j.play_previous_song lo = some res → ∀ w ∈ res.2, amended_allowed w = true := by
  intro res hres
  unfold JukeBox.play_previous_song at hres
  rcases hq : j.queue.next_back with _ | ⟨t, q'⟩ <;> rw [hq] at hres
  · cases hres
  · rcases t with _ | tt
    · injection hres with hres
      subst hres
      exact pause_writes_ok { j with queue := q' } h
    · injection hres with hres
      subst hres
      exact lap_writes_ok { j with queue := q' } lo

/-- A successful play_previous_song leaves the cell absent or at Pause. -/
theorem pps_state_ok (j : JukeBox) (lo : Bool) (res : Except PlayerErr JukeBox × List WriteEvent)
    (j' : JukeBox) (hres : j.play_previous_song lo = some res) (hok : res.1 = .ok j') :
    j'.stream_state = none ∨ j'.stream_state = some .Pause := by
  unfold JukeBox.play_previous_song at hres
  rcases hq : j.queue.next_back with _ | ⟨t, q'⟩ <;> rw [hq] at hres
  · cases hres
  · rcases t with _ | tt
    · injection hres with hres
      subst hres
      simp only at hok
      injection hok with hok
      subst hok
      exact pause_state_ok { j with queue := q' }
    · injection hres with hres
      subst hres
      exact Or.inr (lap_ok_state { j with queue := q' } lo j' hok)

/-- All writes of prepare_current_song are in the amended allowed set,
provided the held cell is not at Stop. -/
theorem pcs_writes_ok (j : JukeBox) (lo : Bool) (h : j.stream_state ≠ some .Stop) :
    ∀ w ∈ (j.prepare_current_song lo).2, amended_allowed w = true := by
  unfold JukeBox.prepare_current_song
  rcases hq : j.queue.current with _ | t
  · exact pause_writes_ok j h
  · exact lap_writes_ok j lo

/-- A successful prepare_current_song leaves the cell absent or at Pause. -/
theorem pcs_state_ok (j : JukeBox) (lo : Bool) (j' : JukeBox)
    (hok : (j.prepare_current_song lo).1 = .ok j') :
    j'.stream_state = none ∨ j'.stream_state = some .Pause := by
  unfold JukeBox.prepare_current_song at hok
  rcases hq : j.queue.current with _ | t <;> rw [hq] at hok
  · simp only at hok
    injection hok with hok
    subst hok
    exact pause_state_ok j
  · exact Or.inr (lap_ok_state j lo j' hok)

/-- All writes the engine performs (the final Done on exhaustion) are in the
amended allowed set when the last known cell value is Play or Pause. -/
theorem engine_writes_ok (pkts : List (PacketObs × Packet)) :
    ∀ init : StreamState, init = .Play ∨ init = .Pause →
      ∀ w ∈ (engineSteps init pkts).1, amended_allowed w = true := by
  induction pkts with
  | nil =>
    intro init h w hw
    simp [engineSteps] at hw
    subst hw
    rcases h with rfl | rfl <;> rfl
  | cons p rest ih =>
    intro init h w hw
    obtain ⟨obs, pkt⟩ := p
    cases obs with
    | stop => simp [engineSteps] at hw
    | pauseThenStop => simp [engineSteps] at hw
    | pauseThenPlay =>
      cases hd : pkt.is_audio && !pkt.decode_ok <;> rw [engineSteps] at hw <;>
        simp only [hd] at hw
      · exact ih .Play (Or.inl rfl) w hw
      · simp at hw
    | play =>
      cases hd : pkt.is_audio && !pkt.decode_ok <;> rw [engineSteps] at hw <;>
        simp only [hd] at hw
      · exact ih .Play (Or.inl rfl) w hw
      · simp at hw

/-- Claim C2 as stated is false on the code: in the reachable scenario-B state
where track 2's Done event arrives (three tracks, looping off, autoplay on,
cursor 2, the finished track's cell at Done), handling the Done event advances
the cursor to the sentinel and makes the Orchestrator write Pause and then
Play onto the Finished cell; the write Finished→Paused is outside the claim's
allowed transition set. -/
theorem C2_counterexample :
    (JukeBox.handle_event
        ⟨⟨["a", "b", "c"], 2, ⟨false⟩⟩, some StreamState.Done, ⟨true, true, 1⟩⟩
        Event.Done true).map Prod.snd
      = some [⟨StreamState.Done, StreamState.Pause, Writer.orch⟩,
          ⟨StreamState.Pause, StreamState.Play, Writer.orch⟩] ∧
    claim_allowed ⟨StreamState.Done, StreamState.Pause, Writer.orch⟩ = false := by
  decide

/-- Claim C2 amended: every write to a shared StreamState cell performed while
the Orchestrator handles a command or an event from a state whose held cell is
not at Stop (a Stop-valued cell is never retained across an iteration: a
successful load replaces it and a failed one ends the loop), and every write
performed by the engine's run loop starting from a last-known value of Play or
Pause, either leaves the value unchanged or lies in the claim's allowed set
extended with the Orchestrator's Finished→Paused and Finished→Playing writes,
which do occur (end-of-playlist handling and toggle-play on a finished
track). -/
theorem C2_amended :
    (∀ (j : JukeBox) (cmd : Command) (lo : Bool)
        (res : Except Unit JukeBox × List WriteEvent),
        j.stream_state ≠ some StreamState.Stop → j.handle_command cmd lo = some res →
        ∀ w ∈ res.2, amended_allowed w = true) ∧
    (∀ (j : JukeBox) (e : Event) (lo : Bool)
        (res : Except PlayerErr JukeBox × List WriteEvent),
        j.stream_state ≠ some StreamState.Stop → j.handle_event e lo = some res →
        ∀ w ∈ res.2, amended_allowed w = true) ∧
    (∀ (init : StreamState) (pkts : List (PacketObs × Packet)),
        init = StreamState.Play ∨ init = StreamState.Pause →
        ∀ w ∈ (engineSteps init pkts).1, amended_allowed w = true) := by
  refine ⟨?_, ?_, fun init pkts h => engine_writes_ok pkts init h⟩
  · intro j cmd lo res h hres w hw
    cases cmd with
    | Next =>
      unfold JukeBox.handle_command at hres
      rcases hp : j.prepare_next_song lo with _ | ⟨er | j1, ws⟩ <;> rw [hp] at hres
      · cases hres
      · injection hres with hres
        subst hres
        exact pns_writes_ok j lo h _ hp w hw
      · injection hres with hres
        subst hres
        rcases List.mem_append.mp hw with hw | hw
        · exact pns_writes_ok j lo h _ hp w hw
        · have hst := pns_state_ok j lo _ j1 hp rfl
          refine play_writes_ok j1 ?_ w hw
          rcases hst with hst | hst <;> simp [hst]
    | Previous =>
      unfold JukeBox.handle_command at hres
      rcases hp : j.play_previous_song lo with _ | ⟨er | j1, ws⟩ <;> rw [hp] at hres
      · cases hres
      · injection hres with hres
        subst hres
        exact pps_writes_ok j lo h _ hp w hw
      · injection hres with hres
        subst hres
        rcases List.mem_append.mp hw with hw | hw
        · exact pps_writes_ok j lo h _ hp w hw
        · have hst := pps_state_ok j lo _ j1 hp rfl
          refine play_writes_ok j1 ?_ w hw
          rcases hst with hst | hst <;> simp [hst]
    | Restart =>
      unfold JukeBox.handle_command at hres
      rcases hp : j.prepare_current_song lo with ⟨er | j1, ws⟩ <;> rw [hp] at hres
      · injection hres with hres
        subst hres
        have := pcs_writes_ok j lo h
        rw [hp] at this
        exact this w hw
      · by_cases hst : j.stream_state = some StreamState.Play <;>
          simp only [hst, if_pos, if_neg, reduceIte] at hres <;>
          injection hres with hres <;> subst hres
        · rcases List.mem_append.mp hw with hw | hw
          · have := pcs_writes_ok j lo h
            rw [hp] at this
            exact this w hw
          · have hj1 : (j.prepare_current_song lo).1 = .ok j1 := by rw [hp]
            have hs1 := pcs_state_ok j lo j1 hj1
            refine play_writes_ok j1 ?_ w hw
            rcases hs1 with hs1 | hs1 <;> simp [hs1]
        · have := pcs_writes_ok j lo h
          rw [hp] at this
          exact this w hw
    | TogglePlay =>
      unfold JukeBox.handle_command at hres
      injection hres with hres
      subst hres
      exact toggle_writes_ok j h w hw
    | ToggleLoop =>
      unfold JukeBox.handle_command at hres
      injection hres with hres
      subst hres
      simp at hw
    | ToggleAutoplay =>
      unfold JukeBox.handle_command at hres
      injection hres with hres
      subst hres
      simp at hw
    | ToggleShowState =>
      unfold JukeBox.handle_command at hres
      injection hres with hres
      subst hres
      simp at hw
    | Quit =>
      unfold JukeBox.handle_command at hres
      cases hres
  · intro j e lo res h hres w hw
    cases e with
    | Done =>
      unfold JukeBox.handle_event at hres
      by_cases ha : j.cfg.autoplay <;> simp only [ha, if_pos, if_neg, reduceIte] at hres
      · rcases hp : j.prepare_next_song lo with _ | ⟨er | j1, ws⟩ <;> rw [hp] at hres
        · cases hres
        · injection hres with hres
          subst hres
          exact pns_writes_ok j lo h _ hp w hw
        · injection hres with hres
          subst hres
          rcases List.mem_append.mp hw with hw | hw
          · exact pns_writes_ok j lo h _ hp w hw
          · have hst := pns_state_ok j lo _ j1 hp rfl
            refine play_writes_ok j1 ?_ w hw
            rcases hst with hst | hst <;> simp [hst]
      · exact pns_writes_ok j lo h res hres w hw
    | StreamErr =>
      unfold JukeBox.handle_event at hres
      injection hres with hres
      subst hres
      simp at hw

/-- Witness for C2_amended: the amended discipline on the scenario-B Done
handling, a toggle-play on a finished track, and an engine run with no
packets. -/
theorem C2_amended_witness :
    (∀ w ∈ [(⟨StreamState.Done, StreamState.Pause, Writer.orch⟩ : WriteEvent),
        ⟨StreamState.Pause, StreamState.Play, Writer.orch⟩],
      amended_allowed w = true) ∧
    (∀ w ∈ [(⟨StreamState.Done, StreamState.Play, Writer.orch⟩ : WriteEvent)],
      amended_allowed w = true) ∧
    (∀ w ∈ [(⟨StreamState.Play, StreamState.Done, Writer.engine⟩ : WriteEvent)],
      amended_allowed w = true) :=
  ⟨C2_amended.2.1 ⟨⟨["a", "b", "c"], 3, ⟨false⟩⟩, some StreamState.Done, ⟨true, true, 1⟩⟩
      Event.Done true
      (Except.ok ⟨⟨["a", "b", "c"], 3, ⟨false⟩⟩, some StreamState.Play, ⟨true, true, 1⟩⟩,
        [⟨StreamState.Done, StreamState.Pause, Writer.orch⟩,
         ⟨StreamState.Pause, StreamState.Play, Writer.orch⟩])
      (by decide) (by decide),
    C2_amended.1 ⟨⟨["a"], 0, ⟨true⟩⟩, some StreamState.Done, ⟨false, true, 1⟩⟩
      Command.TogglePlay true
      (Except.ok ⟨⟨["a"], 0, ⟨true⟩⟩, some StreamState.Play, ⟨false, true, 1⟩⟩,
        [⟨StreamState.Done, StreamState.Play, Writer.orch⟩])
      (by decide) (by decide),
    C2_amended.2.2 StreamState.Play [] (Or.inl rfl)⟩

end SensitAudio
